import Mathlib

/-!
# Verification of the ceres-factors residual library

Shallow embedding of `src/include/ceres-factors/Factors.h`: eight residual
functors (SO3Factor, RelSE3Factor, RangeFactor, AltFactor, TimeSyncAttFactor,
SO3OffsetFactor, SE3OffsetFactor, SE3ReprojectionFactor), each storing an
immutable measurement and a precomputed information value, and each exposing
a templated evaluation operator writing a residual and returning `true`.

The manifold value types `SO3<T>` / `SE3<T>` come from an external geometry
library (`SO3.h`, `SE3.h`), which is not part of this repository; they are
modelled from the spec as unit quaternions (coefficients `w, x, y, z`) and
translation-plus-quaternion pairs, with a first-order tangent-space chart for
the boxminus / boxplus operators.

Scalar arithmetic (C++ `double` / jet types evaluated at doubles) is modelled
exactly over `ℚ`, except for the range factor whose Euclidean norm requires a
real square root and is modelled over `ℝ`.  Parameter blocks are modelled as
coefficient streams `ℕ → ℚ` (resp. `ℕ → ℝ`), mirroring the raw `T *` pointers
the functors receive; each functor reads exactly the indices the C++ code
dereferences.  Each evaluation operator is modelled as a function returning
the pair (residual vector written through the result pointer, boolean flag).
-/

/-- Modelled from the spec: the external orientation element (`SO3<T>` of the
missing `SO3.h`), a quaternion with coefficients `w, x, y, z`. -/
structure Quat where
  w : ℚ
  x : ℚ
  y : ℚ
  z : ℚ
deriving DecidableEq

/-- Modelled from the spec: quaternion (Hamilton) product, the composition
operator of the external manifold abstraction. -/
def Quat.mul (a b : Quat) : Quat :=
  ⟨a.w * b.w - a.x * b.x - a.y * b.y - a.z * b.z,
   a.w * b.x + a.x * b.w + a.y * b.z - a.z * b.y,
   a.w * b.y - a.x * b.z + a.y * b.w + a.z * b.x,
   a.w * b.z + a.x * b.y - a.y * b.x + a.z * b.w⟩

/-- Modelled from the spec: quaternion conjugate, the inversion operator of the
external manifold abstraction (inverse = conjugate for unit quaternions, which
the spec assumes the solver maintains). -/
def Quat.conj (a : Quat) : Quat := ⟨a.w, -a.x, -a.y, -a.z⟩

/-- The identity orientation element. -/
def Quat.one : Quat := ⟨1, 0, 0, 0⟩

/-- Modelled from the spec: the tangent-space difference ("boxminus") of two
orientation elements, as a first-order chart: twice the vector part of
`b⁻¹ * a`.  This is the `SO3<T>::operator-` consumed by the factors; the only
properties the claims use are shared by every such chart (it vanishes exactly
on the diagonal to first order). -/
def Quat.boxminus (a b : Quat) : Fin 3 → ℚ :=
  ![2 * (b.conj.mul a).x, 2 * (b.conj.mul a).y, 2 * (b.conj.mul a).z]

/-- Modelled from the spec: the retraction ("boxplus") adding a tangent vector
to an orientation element, first-order chart inverse of `Quat.boxminus`:
`q ⊞ v = q * (1, v/2)`.  The spec describes the time-sync factor's
`q + dt·w` as "a first-order linearized attitude propagation". -/
def Quat.boxplus (a : Quat) (v : Fin 3 → ℚ) : Quat :=
  a.mul ⟨1, v 0 / 2, v 1 / 2, v 2 / 2⟩

/-- Modelled from the spec: rotation of a 3-vector by a quaternion, the
sandwich product `q * (0, v) * q.conj`. -/
def Quat.rotate (q : Quat) (v : Fin 3 → ℚ) : Fin 3 → ℚ :=
  ![((q.mul ⟨0, v 0, v 1, v 2⟩).mul q.conj).x,
    ((q.mul ⟨0, v 0, v 1, v 2⟩).mul q.conj).y,
    ((q.mul ⟨0, v 0, v 1, v 2⟩).mul q.conj).z]

/-- Modelled from the spec: the external pose element (`SE3<T>` of the missing
`SE3.h`): a translation plus an orientation, 7 coefficients in a buffer
(indices 0..2 the translation, 3..6 the quaternion, consistent with
`AltFactor` reading the altitude at index 2 and `RangeFactor` reading the
translation at indices 0..2). -/
structure SE3 where
  t : Fin 3 → ℚ
  q : Quat
deriving DecidableEq

/-- Modelled from the spec: pose composition `(t₁ + R₁ t₂, q₁ q₂)`. -/
def SE3.comp (a b : SE3) : SE3 := ⟨a.t + a.q.rotate b.t, a.q.mul b.q⟩

/-- Modelled from the spec: pose inversion `(-R⁻¹ t, q⁻¹)`. -/
def SE3.inv (a : SE3) : SE3 := ⟨-(a.q.conj.rotate a.t), a.q.conj⟩

/-- Modelled from the spec: action of a pose on a 3D point, `t + R v`. -/
def SE3.act (a : SE3) (v : Fin 3 → ℚ) : Fin 3 → ℚ := a.t + a.q.rotate v

/-- The identity pose element. -/
def SE3.one : SE3 := ⟨0, Quat.one⟩

/-- Modelled from the spec: the tangent-space difference ("boxminus") of two
pose elements, the 6-vector chart of the relative pose `b⁻¹ * a` (translation
part, then the orientation chart of `Quat.boxminus`). -/
def SE3.boxminus (a b : SE3) : Fin 6 → ℚ :=
  ![(b.inv.comp a).t 0, (b.inv.comp a).t 1, (b.inv.comp a).t 2,
    2 * (b.inv.comp a).q.x, 2 * (b.inv.comp a).q.y, 2 * (b.inv.comp a).q.z]

/-- Read an orientation element from a coefficient buffer, as `SO3<T> q(_q)`
does from its 4 coefficients. -/
def quatOfBuf (b : ℕ → ℚ) : Quat := ⟨b 0, b 1, b 2, b 3⟩

/-- Read a pose element from a coefficient buffer, as `SE3<T> X(_X)` does from
its 7 coefficients. -/
def se3OfBuf (b : ℕ → ℚ) : SE3 := ⟨![b 0, b 1, b 2], ⟨b 3, b 4, b 5, b 6⟩⟩

/-- Read an orientation element from a `Vector4d`, as the `SO3d` members are
constructed from the `Vector4d` constructor arguments. -/
def quatOfVec4 (v : Fin 4 → ℚ) : Quat := ⟨v 0, v 1, v 2, v 3⟩

/-- Read a pose element from a `Vector7d` constructor argument. -/
def se3OfVec7 (v : Fin 7 → ℚ) : SE3 := ⟨![v 0, v 1, v 2], ⟨v 3, v 4, v 5, v 6⟩⟩

/-- Eigen's fixed-size matrix inverse `Q.inverse()` for a 3×3 matrix:
cofactor formula, adjugate divided by the determinant, computed
unconditionally (no invertibility check; a singular input yields degenerate
values rather than an error). -/
def eigenInv3 (Q : Matrix (Fin 3) (Fin 3) ℚ) : Matrix (Fin 3) (Fin 3) ℚ :=
  Q.det⁻¹ • Q.adjugate

/-- Eigen's matrix inverse `Q.inverse()` for a 6×6 matrix, modelled by the
same adjugate-over-determinant formula (equal to the true inverse whenever
the determinant is nonzero, and computed unconditionally otherwise). -/
def eigenInv6 (Q : Matrix (Fin 6) (Fin 6) ℚ) : Matrix (Fin 6) (Fin 6) ℚ :=
  Q.det⁻¹ • Q.adjugate

/-! ## The factor classes (from `Factors.h`) -/

/-- `SO3Factor`: stores the measured orientation `q_` and the inverted
covariance `Q_inv_` (`Factors.h` lines 12-44). -/
structure SO3Factor where
  q_ : Quat
  Q_inv_ : Matrix (Fin 3) (Fin 3) ℚ

/-- The `SO3Factor(q_vec, Q)` constructor: `q_(q_vec), Q_inv_(Q.inverse())`. -/
def SO3Factor.make (q_vec : Fin 4 → ℚ) (Q : Matrix (Fin 3) (Fin 3) ℚ) : SO3Factor :=
  ⟨quatOfVec4 q_vec, eigenInv3 Q⟩

/-- `SO3Factor::operator()(_q_hat, _res)`:
`r = Q_inv_ * (q_hat - q_.cast<T>()); return true;`. -/
def SO3Factor.residual (f : SO3Factor) (q_hat : ℕ → ℚ) : (Fin 3 → ℚ) × Bool :=
  (f.Q_inv_.mulVec ((quatOfBuf q_hat).boxminus f.q_), true)

/-- Residual dimension declared by `SO3Factor::Create`'s
`AutoDiffCostFunction<SO3Factor, 3, 4>`. -/
def SO3Factor.residualDim : ℕ := 3

/-- Parameter-block sizes declared by `SO3Factor::Create`. -/
def SO3Factor.blockSizes : List ℕ := [4]

/-- `RelSE3Factor`: stores the measured relative pose `Xij_` and the inverted
covariance `Q_inv_` (`Factors.h` lines 46-86). -/
structure RelSE3Factor where
  Xij_ : SE3
  Q_inv_ : Matrix (Fin 6) (Fin 6) ℚ

/-- The `RelSE3Factor(X_vec, Q)` constructor: `Xij_(X_vec), Q_inv_(Q.inverse())`. -/
def RelSE3Factor.make (X_vec : Fin 7 → ℚ) (Q : Matrix (Fin 6) (Fin 6) ℚ) : RelSE3Factor :=
  ⟨se3OfVec7 X_vec, eigenInv6 Q⟩

/-- `RelSE3Factor::operator()(_Xi_hat, _Xj_hat, _res)`:
`r = Q_inv_ * (Xi_hat.inverse() * Xj_hat - Xij_.cast<T>()); return true;`. -/
def RelSE3Factor.residual (f : RelSE3Factor) (Xi_hat Xj_hat : ℕ → ℚ) :
    (Fin 6 → ℚ) × Bool :=
  (f.Q_inv_.mulVec (((se3OfBuf Xi_hat).inv.comp (se3OfBuf Xj_hat)).boxminus f.Xij_), true)

/-- Residual dimension declared by `RelSE3Factor::Create`'s
`AutoDiffCostFunction<RelSE3Factor, 6, 7, 7>`. -/
def RelSE3Factor.residualDim : ℕ := 6

/-- Parameter-block sizes declared by `RelSE3Factor::Create`. -/
def RelSE3Factor.blockSizes : List ℕ := [7, 7]

/-- `RangeFactor`: stores the measured range `rij_` and the inverted variance
`qij_inv_` (`Factors.h` lines 88-121).  Modelled over `ℝ` because the
evaluation takes a Euclidean norm. -/
structure RangeFactor where
  rij_ : ℝ
  qij_inv_ : ℝ

/-- The `RangeFactor(rij, qij)` constructor: `rij_ = rij; qij_inv_ = 1.0 / qij;`. -/
noncomputable def RangeFactor.make (rij qij : ℝ) : RangeFactor := ⟨rij, 1 / qij⟩

/-- The Euclidean norm `(tj_hat - ti_hat).norm()` of the difference of the two
translations, each read from the first three coefficients of its pose buffer
(`Eigen::Matrix<T, 3, 1> ti_hat(_Xi_hat), tj_hat(_Xj_hat)`). -/
noncomputable def rangeNorm (Xi_hat Xj_hat : ℕ → ℝ) : ℝ :=
  Real.sqrt ((Xj_hat 0 - Xi_hat 0) ^ 2 + (Xj_hat 1 - Xi_hat 1) ^ 2 +
    (Xj_hat 2 - Xi_hat 2) ^ 2)

/-- `RangeFactor::operator()(_Xi_hat, _Xj_hat, _res)`:
`*_res = qij_inv_ * (rij_ - (tj_hat - ti_hat).norm()); return true;`. -/
noncomputable def RangeFactor.residual (f : RangeFactor) (Xi_hat Xj_hat : ℕ → ℝ) :
    ℝ × Bool :=
  (f.qij_inv_ * (f.rij_ - rangeNorm Xi_hat Xj_hat), true)

/-- Residual dimension declared by `RangeFactor::Create`'s
`AutoDiffCostFunction<RangeFactor, 1, 7, 7>`. -/
def RangeFactor.residualDim : ℕ := 1

/-- Parameter-block sizes declared by `RangeFactor::Create`. -/
def RangeFactor.blockSizes : List ℕ := [7, 7]

/-- `AltFactor`: stores the measured altitude `hi_` and the inverted variance
`qi_inv_` (`Factors.h` lines 123-156). -/
structure AltFactor where
  hi_ : ℚ
  qi_inv_ : ℚ

/-- The `AltFactor(hi, qi)` constructor: `hi_ = hi; qi_inv_ = 1.0 / qi;`. -/
def AltFactor.make (hi qi : ℚ) : AltFactor := ⟨hi, 1 / qi⟩

/-- `AltFactor::operator()(_Xi_hat, _res)`:
`T hi_hat = *(_Xi_hat + 2); *_res = qi_inv_ * (hi_ - hi_hat); return true;`. -/
def AltFactor.residual (f : AltFactor) (Xi_hat : ℕ → ℚ) : ℚ × Bool :=
  (f.qi_inv_ * (f.hi_ - Xi_hat 2), true)

/-- Residual dimension declared by `AltFactor::Create`'s
`AutoDiffCostFunction<AltFactor, 1, 7>`. -/
def AltFactor.residualDim : ℕ := 1

/-- Parameter-block sizes declared by `AltFactor::Create`. -/
def AltFactor.blockSizes : List ℕ := [7]

/-- `TimeSyncAttFactor`: stores the reference orientation `q_ref_`, the
measured orientation `q_`, the angular rate `w_` and the inverted covariance
`Q_inv_` (`Factors.h` lines 158-195). -/
structure TimeSyncAttFactor where
  q_ref_ : Quat
  q_ : Quat
  w_ : Fin 3 → ℚ
  Q_inv_ : Matrix (Fin 3) (Fin 3) ℚ

/-- The `TimeSyncAttFactor(q_ref_vec, q_vec, w_vec, Q)` constructor. -/
def TimeSyncAttFactor.make (q_ref_vec q_vec : Fin 4 → ℚ) (w_vec : Fin 3 → ℚ)
    (Q : Matrix (Fin 3) (Fin 3) ℚ) : TimeSyncAttFactor :=
  ⟨quatOfVec4 q_ref_vec, quatOfVec4 q_vec, w_vec, eigenInv3 Q⟩

/-- `TimeSyncAttFactor::operator()(_dt_hat, _res)`:
`r = Q_inv_ * (q_ref_ - (q_ + *_dt_hat * w_)); return true;` — the boxplus of
the stored orientation with `dt · w`, boxminus'd from the reference. -/
def TimeSyncAttFactor.residual (f : TimeSyncAttFactor) (dt_hat : ℕ → ℚ) :
    (Fin 3 → ℚ) × Bool :=
  (f.Q_inv_.mulVec (f.q_ref_.boxminus (f.q_.boxplus (dt_hat 0 • f.w_))), true)

/-- Residual dimension declared by `TimeSyncAttFactor::Create`'s
`AutoDiffCostFunction<TimeSyncAttFactor, 3, 1>`. -/
def TimeSyncAttFactor.residualDim : ℕ := 3

/-- Parameter-block sizes declared by `TimeSyncAttFactor::Create`. -/
def TimeSyncAttFactor.blockSizes : List ℕ := [1]

/-- `SO3OffsetFactor`: stores the reference orientation `q_ref_`, the measured
orientation `q_` and the inverted covariance `Q_inv_` (`Factors.h`
lines 197-232). -/
structure SO3OffsetFactor where
  q_ref_ : Quat
  q_ : Quat
  Q_inv_ : Matrix (Fin 3) (Fin 3) ℚ

/-- The `SO3OffsetFactor(q_ref_vec, q_vec, Q)` constructor. -/
def SO3OffsetFactor.make (q_ref_vec q_vec : Fin 4 → ℚ)
    (Q : Matrix (Fin 3) (Fin 3) ℚ) : SO3OffsetFactor :=
  ⟨quatOfVec4 q_ref_vec, quatOfVec4 q_vec, eigenInv3 Q⟩

/-- `SO3OffsetFactor::operator()(_q_off, _res)`:
`r = Q_inv_ * (q_ref_ - (q_ * q_off)); return true;`. -/
def SO3OffsetFactor.residual (f : SO3OffsetFactor) (q_off : ℕ → ℚ) :
    (Fin 3 → ℚ) × Bool :=
  (f.Q_inv_.mulVec (f.q_ref_.boxminus (f.q_.mul (quatOfBuf q_off))), true)

/-- Residual dimension declared by `SO3OffsetFactor::Create`'s
`AutoDiffCostFunction<SO3OffsetFactor, 3, 4>`. -/
def SO3OffsetFactor.residualDim : ℕ := 3

/-- Parameter-block sizes declared by `SO3OffsetFactor::Create`. -/
def SO3OffsetFactor.blockSizes : List ℕ := [4]

/-- `SE3OffsetFactor`: stores the reference pose `T_ref_`, the measured pose
`T_` and the inverted covariance `Q_inv_` (`Factors.h` lines 234-271). -/
structure SE3OffsetFactor where
  T_ref_ : SE3
  T_ : SE3
  Q_inv_ : Matrix (Fin 6) (Fin 6) ℚ

/-- The `SE3OffsetFactor(T_ref_vec, T_vec, Q)` constructor. -/
def SE3OffsetFactor.make (T_ref_vec T_vec : Fin 7 → ℚ)
    (Q : Matrix (Fin 6) (Fin 6) ℚ) : SE3OffsetFactor :=
  ⟨se3OfVec7 T_ref_vec, se3OfVec7 T_vec, eigenInv6 Q⟩

/-- `SE3OffsetFactor::operator()(_T_off, _res)`:
`r = Q_inv_ * (T_ref_ - (T_ * T_off)); return true;`. -/
def SE3OffsetFactor.residual (f : SE3OffsetFactor) (T_off : ℕ → ℚ) :
    (Fin 6 → ℚ) × Bool :=
  (f.Q_inv_.mulVec (f.T_ref_.boxminus (f.T_.comp (se3OfBuf T_off))), true)

/-- Residual dimension declared by `SE3OffsetFactor::Create`'s
`AutoDiffCostFunction<SE3OffsetFactor, 6, 7>`. -/
def SE3OffsetFactor.residualDim : ℕ := 6

/-- Parameter-block sizes declared by `SE3OffsetFactor::Create`. -/
def SE3OffsetFactor.blockSizes : List ℕ := [7]

/-- `SE3ReprojectionFactor`: stores the fixed intrinsics `fx, fy, cx, cy`,
the observed image coordinates and the known 3D world point (`Factors.h`
lines 273-321).  It stores no covariance and applies no weighting. -/
structure SE3ReprojectionFactor where
  fx : ℚ
  fy : ℚ
  cx : ℚ
  cy : ℚ
  img_coords : Fin 2 → ℚ
  world_coords : Fin 3 → ℚ

/-- The pinhole projection computed inside
`SE3ReprojectionFactor::operator()`: the world point is carried into the
camera frame by `H.inverse()` and projected with the fixed intrinsics,
dividing by the third (depth) camera coordinate. -/
def SE3ReprojectionFactor.proj (f : SE3ReprojectionFactor) (H : ℕ → ℚ) : Fin 2 → ℚ :=
  ![f.fx * ((se3OfBuf H).inv.act f.world_coords 0) /
      ((se3OfBuf H).inv.act f.world_coords 2) + f.cx,
    f.fy * ((se3OfBuf H).inv.act f.world_coords 1) /
      ((se3OfBuf H).inv.act f.world_coords 2) + f.cy]

/-- `SE3ReprojectionFactor::operator()(_H, res)`:
`r = _img_coords - proj; return true;` — the raw unweighted difference,
no information matrix is applied. -/
def SE3ReprojectionFactor.residual (f : SE3ReprojectionFactor) (H : ℕ → ℚ) :
    (Fin 2 → ℚ) × Bool :=
  (f.img_coords - f.proj H, true)

/-- Residual dimension declared by `SE3ReprojectionFactor::Create`'s
`AutoDiffCostFunction<SE3ReprojectionFactor, 2, 7>`. -/
def SE3ReprojectionFactor.residualDim : ℕ := 2

/-- Parameter-block sizes declared by `SE3ReprojectionFactor::Create`. -/
def SE3ReprojectionFactor.blockSizes : List ℕ := [7]

/-! ## Algebraic facts about the modelled manifold operations -/

/-- Composing with the identity orientation on the right is the identity. -/
theorem Quat.mul_one' (a : Quat) : a.mul Quat.one = a := by
  cases a
  simp [Quat.mul, Quat.one]

/-- The orientation boxminus of an element with itself is the zero vector. -/
theorem Quat.boxminus_self (a : Quat) : a.boxminus a = 0 := by
  funext i
  fin_cases i <;> simp [Quat.boxminus, Quat.mul, Quat.conj] <;> ring

/-- Boxplus with the zero tangent vector is the identity. -/
theorem Quat.boxplus_zero (a : Quat) : a.boxplus 0 = a := by
  cases a
  simp [Quat.boxplus, Quat.mul]

/-- Rotating the zero vector gives the zero vector. -/
theorem Quat.rotate_zero (q : Quat) : q.rotate 0 = 0 := by
  funext i
  fin_cases i <;> simp [Quat.rotate, Quat.mul, Quat.conj]

/-- Composing with the identity pose on the right is the identity. -/
theorem SE3.comp_one (a : SE3) : a.comp SE3.one = a := by
  cases a
  simp [SE3.comp, SE3.one, Quat.mul_one', Quat.rotate_zero]

/-- The pose boxminus of an element with itself is the zero vector. -/
theorem SE3.boxminus_refl (a : SE3) : a.boxminus a = 0 := by
  simp only [SE3.boxminus, SE3.inv, SE3.comp, Quat.rotate, Quat.mul, Quat.conj,
    Pi.add_apply, Pi.neg_apply, Matrix.cons_val_zero, Matrix.cons_val_one,
    Matrix.head_cons, Matrix.cons_val_two, Matrix.tail_cons, Matrix.cons_eq_zero_iff]
  refine ⟨by ring, by ring, by ring, by ring, by ring, by ring, ?_⟩
  exact funext fun i => i.elim0

/-! ## Claims -/

/-- C1: For every factor kind, if the estimated parameter block(s) exactly
equal the stored measurement (for the offset-calibration factors, the offset
parameter is the identity element while the reference equals the measured
orientation/pose; for the time-sync factor, a zero time offset with reference
equal to the measured orientation; for the two-block factors, the relative
quantity of the estimates equals the measurement), the unweighted error
vector is zero, and therefore the residual written by the evaluation operator
is the zero vector for any information matrix. -/
theorem residual_zero_at_exact_measurement :
    (∀ (f : SO3Factor) (b : ℕ → ℚ), quatOfBuf b = f.q_ →
      (f.residual b).1 = 0) ∧
    (∀ (f : RelSE3Factor) (bi bj : ℕ → ℚ),
      (se3OfBuf bi).inv.comp (se3OfBuf bj) = f.Xij_ →
      (f.residual bi bj).1 = 0) ∧
    (∀ (f : RangeFactor) (bi bj : ℕ → ℝ), rangeNorm bi bj = f.rij_ →
      (f.residual bi bj).1 = 0) ∧
    (∀ (f : AltFactor) (b : ℕ → ℚ), b 2 = f.hi_ →
      (f.residual b).1 = 0) ∧
    (∀ (f : TimeSyncAttFactor) (b : ℕ → ℚ), b 0 = 0 → f.q_ref_ = f.q_ →
      (f.residual b).1 = 0) ∧
    (∀ (f : SO3OffsetFactor) (b : ℕ → ℚ), quatOfBuf b = Quat.one →
      f.q_ref_ = f.q_ → (f.residual b).1 = 0) ∧
    (∀ (f : SE3OffsetFactor) (b : ℕ → ℚ), se3OfBuf b = SE3.one →
      f.T_ref_ = f.T_ → (f.residual b).1 = 0) ∧
    (∀ (f : SE3ReprojectionFactor) (b : ℕ → ℚ), f.proj b = f.img_coords →
      (f.residual b).1 = 0) := by
  refine ⟨?_, ?_, ?_, ?_, ?_, ?_, ?_, ?_⟩
  · intro f b h
    simp [SO3Factor.residual, h, Quat.boxminus_self, Matrix.mulVec_zero]
  · intro f bi bj h
    simp [RelSE3Factor.residual, h, SE3.boxminus_refl, Matrix.mulVec_zero]
  · intro f bi bj h
    simp [RangeFactor.residual, h]
  · intro f b h
    simp [AltFactor.residual, h]
  · intro f b h0 hr
    simp [TimeSyncAttFactor.residual, h0, hr, Quat.boxplus_zero,
      Quat.boxminus_self, Matrix.mulVec_zero]
  · intro f b h1 h2
    simp [SO3OffsetFactor.residual, h1, Quat.mul_one', h2, Quat.boxminus_self,
      Matrix.mulVec_zero]
  · intro f b h1 h2
    simp [SE3OffsetFactor.residual, h1, SE3.comp_one, h2, SE3.boxminus_refl,
      Matrix.mulVec_zero]
  · intro f b h
    simp [SE3ReprojectionFactor.residual, h]

/-- Witness for C1: each factor kind evaluated at a concrete estimate equal to
its stored measurement (identity orientations and poses, coincident
translations, matching altitude, zero time offset, on-axis reprojection)
produces the zero residual. -/
theorem residual_zero_at_exact_measurement_witness :
    (((⟨Quat.one, 1⟩ : SO3Factor).residual (fun n => if n = 0 then 1 else 0)).1 = 0) ∧
    (((⟨SE3.one, 1⟩ : RelSE3Factor).residual (fun n => if n = 3 then 1 else 0)
        (fun n => if n = 3 then 1 else 0)).1 = 0) ∧
    (((⟨0, 1⟩ : RangeFactor).residual (fun _ => 0) (fun _ => 0)).1 = 0) ∧
    (((⟨10, 1⟩ : AltFactor).residual (fun _ => 10)).1 = 0) ∧
    (((⟨Quat.one, Quat.one, ![1, 2, 3], 1⟩ : TimeSyncAttFactor).residual
        (fun _ => 0)).1 = 0) ∧
    (((⟨Quat.one, Quat.one, 1⟩ : SO3OffsetFactor).residual
        (fun n => if n = 0 then 1 else 0)).1 = 0) ∧
    (((⟨SE3.one, SE3.one, 1⟩ : SE3OffsetFactor).residual
        (fun n => if n = 3 then 1 else 0)).1 = 0) ∧
    (((⟨1, 1, 0, 0, ![0, 0], ![0, 0, 1]⟩ : SE3ReprojectionFactor).residual
        (fun n => if n = 3 then 1 else 0)).1 = 0) :=
  ⟨residual_zero_at_exact_measurement.1 _ _ (by decide),
   residual_zero_at_exact_measurement.2.1 _ _ _ (by
    simp only [se3OfBuf, SE3.inv, SE3.comp, SE3.one, Quat.rotate, Quat.mul,
      Quat.conj, Quat.one]
    norm_num
    exact funext fun i => by fin_cases i),
   residual_zero_at_exact_measurement.2.2.1 _ _ _ (by simp [rangeNorm]),
   residual_zero_at_exact_measurement.2.2.2.1 _ _ rfl,
   residual_zero_at_exact_measurement.2.2.2.2.1 _ _ rfl rfl,
   residual_zero_at_exact_measurement.2.2.2.2.2.1 _ _ (by decide) rfl,
   residual_zero_at_exact_measurement.2.2.2.2.2.2.1 _ _ (by
    simp only [se3OfBuf, SE3.one, Quat.one]
    norm_num
    exact funext fun i => by fin_cases i) rfl,
   residual_zero_at_exact_measurement.2.2.2.2.2.2.2 _ _ (by
    simp only [SE3ReprojectionFactor.proj, se3OfBuf, SE3.inv, SE3.act,
      Quat.rotate, Quat.mul, Quat.conj]
    exact funext fun i => by fin_cases i <;> norm_num)⟩

/-- C2 counterexample: the claim says a singular covariance "is detected and
fails at construction time".  In the code there is no check at all:
constructing `SO3Factor` with the singular zero covariance succeeds, silently
stores the degenerate information matrix (`Q.inverse()` of a singular matrix;
the zero matrix in this exact-arithmetic model, NaN/Inf entries in floating
point), and every later evaluation runs normally — here a *nonzero* error
vector is mapped to the zero residual with the success flag still `true`.
Likewise `RangeFactor` constructed with variance 0 stores the unchecked
reciprocal `1.0 / 0.0` and evaluates normally. -/
theorem covariance_validation_counterexample :
    (SO3Factor.make ![1, 0, 0, 0] 0).Q_inv_ = 0 ∧
    (quatOfBuf (fun n => if n = 1 then 1 else 0)).boxminus
      (SO3Factor.make ![1, 0, 0, 0] 0).q_ ≠ 0 ∧
    ((SO3Factor.make ![1, 0, 0, 0] 0).residual (fun n => if n = 1 then 1 else 0)).1 = 0 ∧
    ((SO3Factor.make ![1, 0, 0, 0] 0).residual (fun n => if n = 1 then 1 else 0)).2 = true ∧
    (RangeFactor.make 5 0).qij_inv_ = 1 / 0 ∧
    ((RangeFactor.make 5 0).residual (fun _ => 0) (fun _ => 0)).2 = true := by
  have h3 : (0 : Matrix (Fin 3) (Fin 3) ℚ).det = 0 := by simp
  refine ⟨?_, ?_, ?_, rfl, rfl, rfl⟩
  · simp [SO3Factor.make, eigenInv3, h3]
  · intro h
    have h0 := congrFun h 0
    simp [quatOfBuf, Quat.boxminus, Quat.mul, Quat.conj, SO3Factor.make,
      quatOfVec4] at h0
  · simp [SO3Factor.residual, SO3Factor.make, eigenInv3, h3]

/-- C2 amended: no factor validates invertibility of its covariance.  Each
constructor unconditionally computes and stores the algebraic inverse
(adjugate over determinant for matrix covariances, the raw reciprocal for the
scalar variances), so constructing with a singular covariance succeeds
silently — the degenerate information values are stored and every later
evaluation proceeds and reports success. -/
theorem covariance_inverted_unconditionally :
    (∀ (q_vec : Fin 4 → ℚ) (Q : Matrix (Fin 3) (Fin 3) ℚ) (b : ℕ → ℚ),
      Q.det = 0 →
      (SO3Factor.make q_vec Q).Q_inv_ = Q.det⁻¹ • Q.adjugate ∧
      ((SO3Factor.make q_vec Q).residual b).2 = true) ∧
    (∀ (X_vec : Fin 7 → ℚ) (Q : Matrix (Fin 6) (Fin 6) ℚ) (bi bj : ℕ → ℚ),
      Q.det = 0 →
      (RelSE3Factor.make X_vec Q).Q_inv_ = Q.det⁻¹ • Q.adjugate ∧
      ((RelSE3Factor.make X_vec Q).residual bi bj).2 = true) ∧
    (∀ (rij : ℝ) (bi bj : ℕ → ℝ),
      (RangeFactor.make rij 0).qij_inv_ = 1 / 0 ∧
      ((RangeFactor.make rij 0).residual bi bj).2 = true) ∧
    (∀ (hi : ℚ) (b : ℕ → ℚ),
      (AltFactor.make hi 0).qi_inv_ = 1 / 0 ∧
      ((AltFactor.make hi 0).residual b).2 = true) ∧
    (∀ (qr qv : Fin 4 → ℚ) (w : Fin 3 → ℚ) (Q : Matrix (Fin 3) (Fin 3) ℚ)
      (b : ℕ → ℚ), Q.det = 0 →
      (TimeSyncAttFactor.make qr qv w Q).Q_inv_ = Q.det⁻¹ • Q.adjugate ∧
      ((TimeSyncAttFactor.make qr qv w Q).residual b).2 = true) ∧
    (∀ (qr qv : Fin 4 → ℚ) (Q : Matrix (Fin 3) (Fin 3) ℚ) (b : ℕ → ℚ),
      Q.det = 0 →
      (SO3OffsetFactor.make qr qv Q).Q_inv_ = Q.det⁻¹ • Q.adjugate ∧
      ((SO3OffsetFactor.make qr qv Q).residual b).2 = true) ∧
    (∀ (Tr Tv : Fin 7 → ℚ) (Q : Matrix (Fin 6) (Fin 6) ℚ) (b : ℕ → ℚ),
      Q.det = 0 →
      (SE3OffsetFactor.make Tr Tv Q).Q_inv_ = Q.det⁻¹ • Q.adjugate ∧
      ((SE3OffsetFactor.make Tr Tv Q).residual b).2 = true) :=
  ⟨fun _ _ _ _ => ⟨rfl, rfl⟩, fun _ _ _ _ _ => ⟨rfl, rfl⟩,
   fun _ _ _ => ⟨rfl, rfl⟩, fun _ _ => ⟨rfl, rfl⟩,
   fun _ _ _ _ _ _ => ⟨rfl, rfl⟩, fun _ _ _ _ _ => ⟨rfl, rfl⟩,
   fun _ _ _ _ _ => ⟨rfl, rfl⟩⟩

set_option maxRecDepth 4000 in
/-- Witness for the amended C2: the singular (zero) covariance — determinant
zero — and the zero scalar variance are accepted by every constructor, the
degenerate information values are stored, and evaluation reports success. -/
theorem covariance_inverted_unconditionally_witness :
    ((SO3Factor.make ![1, 0, 0, 0] 0).Q_inv_ =
        (0 : Matrix (Fin 3) (Fin 3) ℚ).det⁻¹ • (0 : Matrix (Fin 3) (Fin 3) ℚ).adjugate ∧
      ((SO3Factor.make ![1, 0, 0, 0] 0).residual (fun _ => 0)).2 = true) ∧
    ((RelSE3Factor.make ![0, 0, 0, 1, 0, 0, 0] 0).Q_inv_ =
        (0 : Matrix (Fin 6) (Fin 6) ℚ).det⁻¹ • (0 : Matrix (Fin 6) (Fin 6) ℚ).adjugate ∧
      ((RelSE3Factor.make ![0, 0, 0, 1, 0, 0, 0] 0).residual
          (fun _ => 0) (fun _ => 0)).2 = true) ∧
    ((RangeFactor.make 5 0).qij_inv_ = 1 / 0 ∧
      ((RangeFactor.make 5 0).residual (fun _ => 0) (fun _ => 0)).2 = true) ∧
    ((AltFactor.make 10 0).qi_inv_ = 1 / 0 ∧
      ((AltFactor.make 10 0).residual (fun _ => 0)).2 = true) ∧
    ((TimeSyncAttFactor.make ![1, 0, 0, 0] ![1, 0, 0, 0] ![0, 0, 0] 0).Q_inv_ =
        (0 : Matrix (Fin 3) (Fin 3) ℚ).det⁻¹ • (0 : Matrix (Fin 3) (Fin 3) ℚ).adjugate ∧
      ((TimeSyncAttFactor.make ![1, 0, 0, 0] ![1, 0, 0, 0] ![0, 0, 0] 0).residual
          (fun _ => 0)).2 = true) ∧
    ((SO3OffsetFactor.make ![1, 0, 0, 0] ![1, 0, 0, 0] 0).Q_inv_ =
        (0 : Matrix (Fin 3) (Fin 3) ℚ).det⁻¹ • (0 : Matrix (Fin 3) (Fin 3) ℚ).adjugate ∧
      ((SO3OffsetFactor.make ![1, 0, 0, 0] ![1, 0, 0, 0] 0).residual
          (fun _ => 0)).2 = true) ∧
    ((SE3OffsetFactor.make ![0, 0, 0, 1, 0, 0, 0] ![0, 0, 0, 1, 0, 0, 0] 0).Q_inv_ =
        (0 : Matrix (Fin 6) (Fin 6) ℚ).det⁻¹ • (0 : Matrix (Fin 6) (Fin 6) ℚ).adjugate ∧
      ((SE3OffsetFactor.make ![0, 0, 0, 1, 0, 0, 0] ![0, 0, 0, 1, 0, 0, 0] 0).residual
          (fun _ => 0)).2 = true) := by
  have h3 : (0 : Matrix (Fin 3) (Fin 3) ℚ).det = 0 := by simp
  have h6 : (0 : Matrix (Fin 6) (Fin 6) ℚ).det = 0 := by simp
  exact ⟨covariance_inverted_unconditionally.1 _ _ _ h3,
    covariance_inverted_unconditionally.2.1 _ _ _ _ h6,
    covariance_inverted_unconditionally.2.2.1 _ _ _,
    covariance_inverted_unconditionally.2.2.2.1 _ _,
    covariance_inverted_unconditionally.2.2.2.2.1 _ _ _ _ _ h3,
    covariance_inverted_unconditionally.2.2.2.2.2.1 _ _ _ _ h3,
    covariance_inverted_unconditionally.2.2.2.2.2.2 _ _ _ _ h6⟩

/-- Buffers agreeing on their first 4 coefficients read to the same
orientation element. -/
theorem quatOfBuf_eq_of_agree {b b' : ℕ → ℚ} (h : ∀ i < 4, b i = b' i) :
    quatOfBuf b = quatOfBuf b' := by
  unfold quatOfBuf
  rw [h 0 (by norm_num), h 1 (by norm_num), h 2 (by norm_num), h 3 (by norm_num)]

/-- Buffers agreeing on their first 7 coefficients read to the same pose
element. -/
theorem se3OfBuf_eq_of_agree {b b' : ℕ → ℚ} (h : ∀ i < 7, b i = b' i) :
    se3OfBuf b = se3OfBuf b' := by
  unfold se3OfBuf
  rw [h 0 (by norm_num), h 1 (by norm_num), h 2 (by norm_num), h 3 (by norm_num),
    h 4 (by norm_num), h 5 (by norm_num), h 6 (by norm_num)]

/-- C3: every `Create` factory declares exactly the residual dimension and
per-parameter-block coefficient-buffer sizes of the spec's catalog
(orientation 3 / [4]; relative pose 6 / [7,7]; range 1 / [7,7]; altitude
1 / [7]; time-sync attitude 3 / [1]; orientation offset 3 / [4]; pose offset
6 / [7]; reprojection 2 / [7]), and each residual functor never reads a
coefficient outside the declared size of each block: buffers agreeing on the
declared prefix give identical evaluations. -/
theorem create_dimensions_match_catalog :
    (SO3Factor.residualDim = 3 ∧ SO3Factor.blockSizes = [4] ∧
      ∀ (f : SO3Factor) (b b' : ℕ → ℚ), (∀ i < 4, b i = b' i) →
        f.residual b = f.residual b') ∧
    (RelSE3Factor.residualDim = 6 ∧ RelSE3Factor.blockSizes = [7, 7] ∧
      ∀ (f : RelSE3Factor) (bi bi' bj bj' : ℕ → ℚ),
        (∀ i < 7, bi i = bi' i) → (∀ i < 7, bj i = bj' i) →
        f.residual bi bj = f.residual bi' bj') ∧
    (RangeFactor.residualDim = 1 ∧ RangeFactor.blockSizes = [7, 7] ∧
      ∀ (f : RangeFactor) (bi bi' bj bj' : ℕ → ℝ),
        (∀ i < 7, bi i = bi' i) → (∀ i < 7, bj i = bj' i) →
        f.residual bi bj = f.residual bi' bj') ∧
    (AltFactor.residualDim = 1 ∧ AltFactor.blockSizes = [7] ∧
      ∀ (f : AltFactor) (b b' : ℕ → ℚ), (∀ i < 7, b i = b' i) →
        f.residual b = f.residual b') ∧
    (TimeSyncAttFactor.residualDim = 3 ∧ TimeSyncAttFactor.blockSizes = [1] ∧
      ∀ (f : TimeSyncAttFactor) (b b' : ℕ → ℚ), (∀ i < 1, b i = b' i) →
        f.residual b = f.residual b') ∧
    (SO3OffsetFactor.residualDim = 3 ∧ SO3OffsetFactor.blockSizes = [4] ∧
      ∀ (f : SO3OffsetFactor) (b b' : ℕ → ℚ), (∀ i < 4, b i = b' i) →
        f.residual b = f.residual b') ∧
    (SE3OffsetFactor.residualDim = 6 ∧ SE3OffsetFactor.blockSizes = [7] ∧
      ∀ (f : SE3OffsetFactor) (b b' : ℕ → ℚ), (∀ i < 7, b i = b' i) →
        f.residual b = f.residual b') ∧
    (SE3ReprojectionFactor.residualDim = 2 ∧ SE3ReprojectionFactor.blockSizes = [7] ∧
      ∀ (f : SE3ReprojectionFactor) (b b' : ℕ → ℚ), (∀ i < 7, b i = b' i) →
        f.residual b = f.residual b') := by
  refine ⟨⟨rfl, rfl, ?_⟩, ⟨rfl, rfl, ?_⟩, ⟨rfl, rfl, ?_⟩, ⟨rfl, rfl, ?_⟩,
    ⟨rfl, rfl, ?_⟩, ⟨rfl, rfl, ?_⟩, ⟨rfl, rfl, ?_⟩, ⟨rfl, rfl, ?_⟩⟩
  · intro f b b' h
    simp only [SO3Factor.residual, quatOfBuf_eq_of_agree h]
  · intro f bi bi' bj bj' hi hj
    simp only [RelSE3Factor.residual, se3OfBuf_eq_of_agree hi, se3OfBuf_eq_of_agree hj]
  · intro f bi bi' bj bj' hi hj
    simp only [RangeFactor.residual, rangeNorm, hi 0 (by norm_num),
      hi 1 (by norm_num), hi 2 (by norm_num), hj 0 (by norm_num),
      hj 1 (by norm_num), hj 2 (by norm_num)]
  · intro f b b' h
    simp only [AltFactor.residual, h 2 (by norm_num)]
  · intro f b b' h
    simp only [TimeSyncAttFactor.residual, h 0 (by norm_num)]
  · intro f b b' h
    simp only [SO3OffsetFactor.residual, quatOfBuf_eq_of_agree h]
  · intro f b b' h
    simp only [SE3OffsetFactor.residual, se3OfBuf_eq_of_agree h]
  · intro f b b' h
    simp only [SE3ReprojectionFactor.residual, SE3ReprojectionFactor.proj,
      se3OfBuf_eq_of_agree h]

/-- Witness for C3: for each factor kind, two concrete buffers that agree on
the declared prefix but differ beyond it produce identical residuals. -/
theorem create_dimensions_match_catalog_witness :
    ((⟨Quat.one, 1⟩ : SO3Factor).residual (fun n => (n : ℚ)) =
      (⟨Quat.one, 1⟩ : SO3Factor).residual (fun n => if n < 4 then (n : ℚ) else 99)) ∧
    ((⟨SE3.one, 1⟩ : RelSE3Factor).residual (fun n => (n : ℚ)) (fun n => (n : ℚ)) =
      (⟨SE3.one, 1⟩ : RelSE3Factor).residual
        (fun n => if n < 7 then (n : ℚ) else 99)
        (fun n => if n < 7 then (n : ℚ) else 99)) ∧
    ((⟨5, 1⟩ : RangeFactor).residual (fun n => (n : ℝ)) (fun n => (n : ℝ)) =
      (⟨5, 1⟩ : RangeFactor).residual
        (fun n => if n < 7 then (n : ℝ) else 99)
        (fun n => if n < 7 then (n : ℝ) else 99)) ∧
    ((⟨10, 1⟩ : AltFactor).residual (fun n => (n : ℚ)) =
      (⟨10, 1⟩ : AltFactor).residual (fun n => if n < 7 then (n : ℚ) else 99)) ∧
    ((⟨Quat.one, Quat.one, ![1, 2, 3], 1⟩ : TimeSyncAttFactor).residual
        (fun n => (n : ℚ)) =
      (⟨Quat.one, Quat.one, ![1, 2, 3], 1⟩ : TimeSyncAttFactor).residual
        (fun n => if n < 1 then (n : ℚ) else 99)) ∧
    ((⟨Quat.one, Quat.one, 1⟩ : SO3OffsetFactor).residual (fun n => (n : ℚ)) =
      (⟨Quat.one, Quat.one, 1⟩ : SO3OffsetFactor).residual
        (fun n => if n < 4 then (n : ℚ) else 99)) ∧
    ((⟨SE3.one, SE3.one, 1⟩ : SE3OffsetFactor).residual (fun n => (n : ℚ)) =
      (⟨SE3.one, SE3.one, 1⟩ : SE3OffsetFactor).residual
        (fun n => if n < 7 then (n : ℚ) else 99)) ∧
    ((⟨1, 1, 0, 0, ![0, 0], ![0, 0, 1]⟩ : SE3ReprojectionFactor).residual
        (fun n => (n : ℚ)) =
      (⟨1, 1, 0, 0, ![0, 0], ![0, 0, 1]⟩ : SE3ReprojectionFactor).residual
        (fun n => if n < 7 then (n : ℚ) else 99)) :=
  ⟨create_dimensions_match_catalog.1.2.2 _ _ _
      (fun i hi => by rw [if_pos hi]),
   create_dimensions_match_catalog.2.1.2.2 _ _ _ _ _
      (fun i hi => by rw [if_pos hi]) (fun i hi => by rw [if_pos hi]),
   create_dimensions_match_catalog.2.2.1.2.2 _ _ _ _ _
      (fun i hi => by rw [if_pos hi]) (fun i hi => by rw [if_pos hi]),
   create_dimensions_match_catalog.2.2.2.1.2.2 _ _ _
      (fun i hi => by rw [if_pos hi]),
   create_dimensions_match_catalog.2.2.2.2.1.2.2 _ _ _
      (fun i hi => by rw [if_pos hi]),
   create_dimensions_match_catalog.2.2.2.2.2.1.2.2 _ _ _
      (fun i hi => by rw [if_pos hi]),
   create_dimensions_match_catalog.2.2.2.2.2.2.1.2.2 _ _ _
      (fun i hi => by rw [if_pos hi]),
   create_dimensions_match_catalog.2.2.2.2.2.2.2.2.2 _ _ _
      (fun i hi => by rw [if_pos hi])⟩

/-- C4: for every factor with matrix weighting (SO3, relative-SE3, time-sync,
SO3-offset, SE3-offset), the residual is linear in the stored information
matrix: with the same measurement and parameter block, the information matrix
`2·M` produces exactly twice the residual produced with `M`; equivalently,
halving the covariance doubles the information matrix computed by the
constructors' `Q.inverse()` (which holds for all covariances, singular ones
included, in this adjugate-over-determinant model). -/
theorem residual_linear_in_information :
    (∀ (q : Quat) (M : Matrix (Fin 3) (Fin 3) ℚ) (b : ℕ → ℚ),
      ((⟨q, (2 : ℚ) • M⟩ : SO3Factor).residual b).1 =
        (2 : ℚ) • ((⟨q, M⟩ : SO3Factor).residual b).1) ∧
    (∀ (X : SE3) (M : Matrix (Fin 6) (Fin 6) ℚ) (bi bj : ℕ → ℚ),
      ((⟨X, (2 : ℚ) • M⟩ : RelSE3Factor).residual bi bj).1 =
        (2 : ℚ) • ((⟨X, M⟩ : RelSE3Factor).residual bi bj).1) ∧
    (∀ (qr qv : Quat) (w : Fin 3 → ℚ) (M : Matrix (Fin 3) (Fin 3) ℚ) (b : ℕ → ℚ),
      ((⟨qr, qv, w, (2 : ℚ) • M⟩ : TimeSyncAttFactor).residual b).1 =
        (2 : ℚ) • ((⟨qr, qv, w, M⟩ : TimeSyncAttFactor).residual b).1) ∧
    (∀ (qr qv : Quat) (M : Matrix (Fin 3) (Fin 3) ℚ) (b : ℕ → ℚ),
      ((⟨qr, qv, (2 : ℚ) • M⟩ : SO3OffsetFactor).residual b).1 =
        (2 : ℚ) • ((⟨qr, qv, M⟩ : SO3OffsetFactor).residual b).1) ∧
    (∀ (Tr Tv : SE3) (M : Matrix (Fin 6) (Fin 6) ℚ) (b : ℕ → ℚ),
      ((⟨Tr, Tv, (2 : ℚ) • M⟩ : SE3OffsetFactor).residual b).1 =
        (2 : ℚ) • ((⟨Tr, Tv, M⟩ : SE3OffsetFactor).residual b).1) ∧
    (∀ Q : Matrix (Fin 3) (Fin 3) ℚ,
      eigenInv3 ((1 / 2 : ℚ) • Q) = (2 : ℚ) • eigenInv3 Q) ∧
    (∀ Q : Matrix (Fin 6) (Fin 6) ℚ,
      eigenInv6 ((1 / 2 : ℚ) • Q) = (2 : ℚ) • eigenInv6 Q) := by
  refine ⟨?_, ?_, ?_, ?_, ?_, ?_, ?_⟩
  · intro q M b
    simp [SO3Factor.residual, Matrix.smul_mulVec_assoc]
  · intro X M bi bj
    simp [RelSE3Factor.residual, Matrix.smul_mulVec_assoc]
  · intro qr qv w M b
    simp [TimeSyncAttFactor.residual, Matrix.smul_mulVec_assoc]
  · intro qr qv M b
    simp [SO3OffsetFactor.residual, Matrix.smul_mulVec_assoc]
  · intro Tr Tv M b
    simp [SE3OffsetFactor.residual, Matrix.smul_mulVec_assoc]
  · intro Q
    simp only [eigenInv3, Matrix.det_smul, Matrix.adjugate_smul, smul_smul,
      Fintype.card_fin]
    congr 1
    rw [mul_inv]
    norm_num
    ring
  · intro Q
    simp only [eigenInv6, Matrix.det_smul, Matrix.adjugate_smul, smul_smul,
      Fintype.card_fin]
    congr 1
    rw [mul_inv]
    norm_num
    ring

/-- C5: the range factor with pose-i translation (0,0,0) and pose-j
translation (3,4,0): with measured range 5 and unit variance the residual is
0; with measured range 6 and variance q the residual equals
(6−5)·(1/q) — the stored inverse variance times (measured range minus the
Euclidean distance between the translations). -/
theorem range_factor_scenarios :
    ((RangeFactor.make 5 1).residual (fun _ => 0)
        (fun n => if n = 0 then 3 else if n = 1 then 4 else 0)).1 = 0 ∧
    ∀ q : ℝ, ((RangeFactor.make 6 q).residual (fun _ => 0)
        (fun n => if n = 0 then 3 else if n = 1 then 4 else 0)).1 =
      (6 - 5) * (1 / q) := by
  have hn : rangeNorm (fun _ => 0)
      (fun n => if n = 0 then 3 else if n = 1 then 4 else 0) = 5 := by
    unfold rangeNorm
    norm_num
    rw [show (25 : ℝ) = 5 ^ 2 by norm_num]
    exact Real.sqrt_sq (by norm_num)
  constructor
  · simp [RangeFactor.residual, RangeFactor.make, hn]
  · intro q
    simp [RangeFactor.residual, RangeFactor.make, hn]
    ring

/-- C6: when the two pose translations coincide, range-factor evaluation
still completes with a well-defined result: the norm of the zero difference
is zero (no crash, no regularization), so the residual is the stored inverse
variance times the measured range, and the success flag is returned. -/
theorem range_zero_separation :
    ∀ (f : RangeFactor) (bi bj : ℕ → ℝ),
      bi 0 = bj 0 → bi 1 = bj 1 → bi 2 = bj 2 →
      f.residual bi bj = (f.qij_inv_ * f.rij_, true) := by
  intro f bi bj h0 h1 h2
  simp [RangeFactor.residual, rangeNorm, h0, h1, h2]

/-- Witness for C6: the factor with range 5 and variance 2 evaluated at two
poses with the same (unit) translation gives residual (1/2)·5. -/
theorem range_zero_separation_witness :
    (RangeFactor.make 5 2).residual (fun _ => 1) (fun _ => 1) =
      (1 / 2 * 5, true) :=
  range_zero_separation _ _ _ rfl rfl rfl

/-- C7: if the estimated camera pose carries the stored world point to camera
coordinates (0, 0, d) with positive depth d and the observed image coordinate
is the principal point (cx, cy), the reprojection residual is [0, 0];
moreover the residual is the raw difference between observed coordinates and
the pinhole projection, with no information-matrix weighting applied. -/
theorem reprojection_on_axis_zero_and_unweighted :
    (∀ (f : SE3ReprojectionFactor) (H : ℕ → ℚ) (d : ℚ),
      (se3OfBuf H).inv.act f.world_coords = ![0, 0, d] → 0 < d →
      f.img_coords = ![f.cx, f.cy] →
      (f.residual H).1 = 0) ∧
    (∀ (f : SE3ReprojectionFactor) (H : ℕ → ℚ),
      (f.residual H).1 = f.img_coords - f.proj H) := by
  constructor
  · intro f H d hcc _hd himg
    have hproj : f.proj H = f.img_coords := by
      unfold SE3ReprojectionFactor.proj
      rw [hcc, himg]
      funext i
      fin_cases i <;> simp
    simp [SE3ReprojectionFactor.residual, hproj]
  · intro f H
    rfl

/-- Witness for C7: intrinsics (2,3,10,20), world point (0,0,7) on the
optical axis of the identity camera pose, observation at the principal point
(10,20): the residual is [0,0]. -/
theorem reprojection_on_axis_witness :
    ((⟨2, 3, 10, 20, ![10, 20], ![0, 0, 7]⟩ : SE3ReprojectionFactor).residual
        (fun n => if n = 3 then 1 else 0)).1 = 0 :=
  reprojection_on_axis_zero_and_unweighted.1 _ _ 7
    (by
      simp only [se3OfBuf, SE3.inv, SE3.act, Quat.rotate, Quat.mul, Quat.conj]
      funext i
      fin_cases i <;> norm_num)
    (by norm_num) rfl

/-- C8: every residual functor's evaluation operator returns the success flag
`true` for all inputs, for every factor kind. -/
theorem evaluation_always_succeeds :
    (∀ (f : SO3Factor) (b : ℕ → ℚ), (f.residual b).2 = true) ∧
    (∀ (f : RelSE3Factor) (bi bj : ℕ → ℚ), (f.residual bi bj).2 = true) ∧
    (∀ (f : RangeFactor) (bi bj : ℕ → ℝ), (f.residual bi bj).2 = true) ∧
    (∀ (f : AltFactor) (b : ℕ → ℚ), (f.residual b).2 = true) ∧
    (∀ (f : TimeSyncAttFactor) (b : ℕ → ℚ), (f.residual b).2 = true) ∧
    (∀ (f : SO3OffsetFactor) (b : ℕ → ℚ), (f.residual b).2 = true) ∧
    (∀ (f : SE3OffsetFactor) (b : ℕ → ℚ), (f.residual b).2 = true) ∧
    (∀ (f : SE3ReprojectionFactor) (b : ℕ → ℚ), (f.residual b).2 = true) :=
  ⟨fun _ _ => rfl, fun _ _ _ => rfl, fun _ _ _ => rfl, fun _ _ => rfl,
   fun _ _ => rfl, fun _ _ => rfl, fun _ _ => rfl, fun _ _ => rfl⟩

/-- C9: the range factor's residual is symmetric in its two parameter blocks,
because the Euclidean distance between the two translations is. -/
theorem range_residual_symmetric :
    ∀ (f : RangeFactor) (Xi Xj : ℕ → ℝ), f.residual Xi Xj = f.residual Xj Xi := by
  intro f Xi Xj
  have hn : rangeNorm Xi Xj = rangeNorm Xj Xi := by
    unfold rangeNorm
    congr 1
    ring
  simp [RangeFactor.residual, hn]

/-- C10: the altitude factor's residual depends only on coefficient index 2
(the third translation coordinate) of its pose block: buffers agreeing at
index 2 produce identical evaluations regardless of all other coefficients. -/
theorem alt_residual_reads_only_altitude :
    ∀ (f : AltFactor) (b b' : ℕ → ℚ), b 2 = b' 2 →
      f.residual b = f.residual b' := by
  intro f b b' h
  simp [AltFactor.residual, h]

/-- Witness for C10: two buffers equal at index 2 but different everywhere
else give the altitude factor identical evaluations. -/
theorem alt_residual_reads_only_altitude_witness :
    (AltFactor.make 10 1).residual (fun _ => 2) =
      (AltFactor.make 10 1).residual (fun n => if n = 2 then 2 else 99) :=
  alt_residual_reads_only_altitude _ _ _ rfl
